import Mathlib

/-!
Verification of the terminal-session engine (`terminal_session.rs`, `agent.rs`).

The definitions below are shallow embeddings of the corresponding Rust
functions: strings are `String`/`List Char`, bytes are `Nat` (with bounds
where u8 overflow matters), fallible code returns `Except String`, and the
stateful worker loop is modelled as an explicit step function over a worker
state plus oracles for the I/O outcomes (spawn result, write result, PTY
drain contents).
-/

/-! ## Snapshot renderer (`TerminalSnapshot::render`) -/

/-- Rust `char::is_whitespace`: the Unicode White_Space property. -/
def rustIsWhitespace (c : Char) : Bool :=
  let n := c.toNat
  (9 ≤ n && n ≤ 13) || n == 32 || n == 0x85 || n == 0xA0 || n == 0x1680 ||
    (0x2000 ≤ n && n ≤ 0x200A) || n == 0x2028 || n == 0x2029 || n == 0x202F ||
    n == 0x205F || n == 0x3000

/-- Rust `str::trim_end` on the character list: drop trailing whitespace. -/
def trimEndChars (l : List Char) : List Char :=
  (l.reverse.dropWhile rustIsWhitespace).reverse

/-- Rust `line.trim_end().to_string()`. -/
def trimEnd (s : String) : String :=
  String.mk (trimEndChars s.toList)

/-- Rust `Vec::join("\n")`: interpose a newline between consecutive rows. -/
def joinRows : List String → String
  | [] => ""
  | [x] => x
  | x :: xs => x ++ "\n" ++ joinRows xs

/-- Lowercase hex digit for `n < 16`. -/
def hexDigitLower (n : Nat) : Char :=
  if n < 10 then Char.ofNat (48 + n) else Char.ofNat (87 + n)

/-- Lowercase hex rendering of a natural number, no leading zeros
(as in Rust `char::escape_unicode`). -/
def toHexLower (n : Nat) : List Char :=
  if _h : n < 16 then [hexDigitLower n]
  else toHexLower (n / 16) ++ [hexDigitLower (n % 16)]
  decreasing_by exact Nat.div_lt_self (by omega) (by omega)

/-- Rust `char::escape_default`, as used by `escape_display_char`:
tab, CR, LF, backslash and both quotes get a backslash escape, printable
ASCII is kept verbatim, and everything else becomes a unicode escape. -/
def escape_display_char (ch : Char) : String :=
  if ch = '\t' then "\\t"
  else if ch = '\r' then "\\r"
  else if ch = '\n' then "\\n"
  else if ch = '\\' then "\\\\"
  else if ch = '\'' then "\\'"
  else if ch = '\"' then "\\\""
  else if 0x20 ≤ ch.toNat && ch.toNat ≤ 0x7e then String.mk [ch]
  else String.mk ('\\' :: 'u' :: '\x7b' :: toHexLower ch.toNat ++ ['\x7d'])

/-- `TerminalSnapshot` from `terminal_session.rs`: `cursor` is `(col, row)`. -/
structure TerminalSnapshot where
  cols : Nat
  rows : Nat
  cursor : Option (Nat × Nat)
  lines : List String
  deriving Repr, DecidableEq

namespace TerminalSnapshot

/-- The original character under the cursor, read from the untrimmed
`lines` (`self.lines.get(row).and_then(chars.nth(col)).unwrap_or(' ')`). -/
def cursorChar (s : TerminalSnapshot) (col row : Nat) : Char :=
  (s.lines[row]?.bind (fun line => line.toList[col]?)).getD ' '

/-- Pad a row to hold column `col`, then overlay the marker glyph there
(the `chars.resize` / `chars[col] = '▮'` block of `render`). -/
def overlayRow (chars : List Char) (col : Nat) : List Char :=
  let chars := if chars.length ≤ col
    then chars ++ List.replicate (col + 1 - chars.length) ' '
    else chars
  chars.set col '▮'

/-- The trimmed rows with the cursor marker overlaid: the value of
`rendered_lines` just before the `join` in `render`. -/
def renderedRows (s : TerminalSnapshot) : List String :=
  let base := s.lines.map trimEnd
  match s.cursor with
  | none => base
  | some (col, row) =>
    let base := if base.length ≤ row
      then base ++ List.replicate (row + 1 - base.length) ""
      else base
    base.set row (String.mk (overlayRow (base[row]?.getD "").toList col))

/-- The footer line built by `render`. -/
def footer (s : TerminalSnapshot) : String :=
  match s.cursor with
  | none => "Cursor info: row=-, col=-, char=\"\""
  | some (col, row) =>
    "Cursor info: row=" ++ toString row ++ ", col=" ++ toString col ++
      ", char=\"" ++ escape_display_char (s.cursorChar col row) ++ "\""

/-- `TerminalSnapshot::render`: join the rows with newlines, append a
trailing newline when the joined string is non-empty, append the footer. -/
def render (s : TerminalSnapshot) : String :=
  let rendered := joinRows (renderedRows s)
  let rendered := if rendered = "" then rendered else rendered ++ "\n"
  rendered ++ footer s

end TerminalSnapshot

/-! ## Renderer lemmas -/

lemma append_newline_ne_empty (a b : String) : a ++ "\n" ++ b ≠ "" := by
  intro h
  have hl := congrArg String.length h
  rw [String.length_append, String.length_append] at hl
  have h1 : ("\n" : String).length = 1 := rfl
  have h0 : ("" : String).length = 0 := rfl
  omega

lemma joinRows_eq_empty_iff (l : List String) : joinRows l = "" ↔ l = [] ∨ l = [""] := by
  match l with
  | [] => simp [joinRows]
  | [x] => simp [joinRows]
  | x :: y :: ys =>
    simp only [joinRows]
    constructor
    · intro h
      exact absurd h (append_newline_ne_empty x (joinRows (y :: ys)))
    · rintro (h | h) <;> simp at h

lemma mk_ne_empty {l : List Char} (h : l ≠ []) : String.mk l ≠ "" :=
  fun he => h (congrArg String.toList he)

lemma overlayRow_length (chars : List Char) (col : Nat) :
    (TerminalSnapshot.overlayRow chars col).length = max (col + 1) chars.length := by
  unfold TerminalSnapshot.overlayRow
  by_cases h : chars.length ≤ col
  · simp only [h, if_true, List.length_set, List.length_append, List.length_replicate]
    omega
  · simp only [h, if_false, List.length_set]
    omega

lemma overlayRow_ne_nil (chars : List Char) (col : Nat) :
    TerminalSnapshot.overlayRow chars col ≠ [] := by
  intro h
  have hl := overlayRow_length chars col
  rw [h] at hl
  simp at hl
  omega

lemma set_replicate_last (k : Nat) (c x : α) :
    (List.replicate (k + 1) c).set k x = List.replicate k c ++ [x] := by
  induction k with
  | zero => rfl
  | succ n ih =>
    rw [List.replicate_succ, List.set, ih]
    rw [List.replicate_succ, List.cons_append]

lemma joinRows_renderedRows_ne_empty (s : TerminalSnapshot) (col row : Nat)
    (h : s.cursor = some (col, row)) : joinRows s.renderedRows ≠ "" := by
  simp only [TerminalSnapshot.renderedRows, h]
  set base := s.lines.map trimEnd with hbase
  set base2 := if base.length ≤ row then base ++ List.replicate (row + 1 - base.length) ""
    else base with hbase2
  set newRow := String.mk (TerminalSnapshot.overlayRow (base2[row]?.getD "").toList col)
    with hnew
  have hrow : row < base2.length := by
    rw [hbase2]
    by_cases hc : base.length ≤ row
    · simp only [hc, if_true, List.length_append, List.length_replicate]; omega
    · simp only [hc, if_false]; omega
  intro hemp
  rw [joinRows_eq_empty_iff] at hemp
  have hne : newRow ≠ "" := mk_ne_empty (overlayRow_ne_nil _ _)
  rcases hemp with hemp | hemp
  · have hl := congrArg List.length hemp
    rw [List.length_set] at hl
    simp only [List.length_nil] at hl
    omega
  · have hl := congrArg List.length hemp
    rw [List.length_set] at hl
    simp only [List.length_cons, List.length_nil] at hl
    have h2 : (base2.set row newRow)[row]? = some newRow :=
      List.getElem?_set_eq_of_lt _ hrow
    rw [hemp] at h2
    have hr0 : row = 0 := by omega
    rw [hr0] at h2
    simp at h2
    exact hne h2.symm

/-- C2: rendering the snapshot `{cols 10, rows 2, cursor (col 1, row 0),
lines ["abc", "xyz"]}` yields exactly `"a▮c"`, newline, `"xyz"`, newline,
then the footer reporting row 0, col 1 and original character `b`. -/
theorem render_replaces_cursor_and_adds_footer :
    TerminalSnapshot.render ⟨10, 2, some (1, 0), ["abc", "xyz"]⟩ =
      "a▮c\nxyz\nCursor info: row=0, col=1, char=\"b\"" := by
  decide

/-- C3 (amended): the rendered output is the trimmed, cursor-overlaid rows
joined by newlines, with a trailing newline appended exactly when the joined
string is non-empty — equivalently when a cursor is present, or at least two
lines exist, or some line trims to a non-empty string — followed by the
footer line. In particular a cursorless snapshot whose lines are `[]`, or a
single line trimming to the empty string, renders with no newline before the
footer. -/
theorem render_newline_structure (s : TerminalSnapshot) :
    s.render = joinRows s.renderedRows ++
      (if s.cursor.isSome = true ∨ 2 ≤ s.lines.length ∨ ∃ l ∈ s.lines, trimEnd l ≠ ""
        then "\n" else "") ++ s.footer := by
  have key : joinRows s.renderedRows = "" ↔
      ¬(s.cursor.isSome = true ∨ 2 ≤ s.lines.length ∨ ∃ l ∈ s.lines, trimEnd l ≠ "") := by
    cases hcur : s.cursor with
    | some c =>
      obtain ⟨col, row⟩ := c
      have hne := joinRows_renderedRows_ne_empty s col row hcur
      simp [hcur, hne]
    | none =>
      simp only [TerminalSnapshot.renderedRows, hcur]
      cases hls : s.lines with
      | nil => simp [joinRows]
      | cons l1 rest =>
        cases rest with
        | nil => simp [joinRows]
        | cons l2 rest2 =>
          simp only [List.map_cons, joinRows]
          constructor
          · intro hc
            exact absurd hc (append_newline_ne_empty _ _)
          · intro hc
            exfalso
            apply hc
            right; left
            simp
  simp only [TerminalSnapshot.render]
  by_cases hc : s.cursor.isSome = true ∨ 2 ≤ s.lines.length ∨ ∃ l ∈ s.lines, trimEnd l ≠ ""
  · have hne : joinRows s.renderedRows ≠ "" := fun he => (key.mp he) hc
    rw [if_pos hc, if_neg hne]
  · have he : joinRows s.renderedRows = "" := key.mpr hc
    rw [if_neg hc, if_pos he, he]
    rfl

/-- C3 counterexample: a snapshot with one line trimming to the empty string
and a hidden cursor renders as the bare footer, with no newline anywhere —
refuting "a newline before the footer whenever any rows exist". -/
theorem render_single_blank_line_counterexample :
    TerminalSnapshot.render ⟨10, 1, none, [""]⟩ =
      "Cursor info: row=-, col=-, char=\"\"" ∧
    '\n' ∉ (TerminalSnapshot.render ⟨10, 1, none, [""]⟩).toList := by
  decide

/-- C4: with a hidden cursor the footer is exactly the sentinel line and the
rendered rows are just the trimmed input lines, with no marker overlaid. -/
theorem render_hidden_cursor (s : TerminalSnapshot) (h : s.cursor = none) :
    s.renderedRows = s.lines.map trimEnd ∧
    s.footer = "Cursor info: row=-, col=-, char=\"\"" ∧
    s.render = (if joinRows (s.lines.map trimEnd) = "" then joinRows (s.lines.map trimEnd)
        else joinRows (s.lines.map trimEnd) ++ "\n") ++
      "Cursor info: row=-, col=-, char=\"\"" := by
  have hr : s.renderedRows = s.lines.map trimEnd := by
    simp only [TerminalSnapshot.renderedRows, h]
  have hf : s.footer = "Cursor info: row=-, col=-, char=\"\"" := by
    simp only [TerminalSnapshot.footer, h]
  refine ⟨hr, hf, ?_⟩
  simp only [TerminalSnapshot.render, hr, hf]

/-- C4 witness: the hidden-cursor theorem applied to a concrete snapshot. -/
theorem render_hidden_cursor_witness :
    TerminalSnapshot.render ⟨10, 1, none, ["abc"]⟩ =
      "abc\nCursor info: row=-, col=-, char=\"\"" := by
  rw [(render_hidden_cursor ⟨10, 1, none, ["abc"]⟩ rfl).2.2]
  decide

/-- C5 (amended): for a cursor beyond the row count or beyond the trimmed
length of its row, render pads rows and columns with blanks until the cursor
cell fits and places the marker glyph there; the footer reports the character
of the original, untrimmed line at the cursor cell — which is a space
whenever the cursor also lies beyond the row count or the untrimmed line's
length, but is the original whitespace character itself (e.g. a tab) when the
cursor sits on a trimmed-away non-space whitespace cell. -/
theorem render_cursor_beyond_bounds (s : TerminalSnapshot) (col row : Nat)
    (hcur : s.cursor = some (col, row))
    (hbeyond : s.lines.length ≤ row ∨ (trimEnd (s.lines[row]?.getD "")).length ≤ col) :
    s.renderedRows.length = max (row + 1) s.lines.length ∧
    s.renderedRows[row]? = some (String.mk
      ((trimEnd (s.lines[row]?.getD "")).toList ++
        List.replicate (col - (trimEnd (s.lines[row]?.getD "")).length) ' ' ++ ['▮'])) ∧
    s.footer = "Cursor info: row=" ++ toString row ++ ", col=" ++ toString col ++
      ", char=\"" ++ escape_display_char (s.cursorChar col row) ++ "\"" ∧
    (s.lines.length ≤ row ∨ (s.lines[row]?.getD "").length ≤ col →
      s.cursorChar col row = ' ') := by
  have hmapget : ∀ o : Option String, (o.map trimEnd).getD "" = trimEnd (o.getD "") := by
    intro o
    cases o <;> rfl
  have hT : (trimEnd (s.lines[row]?.getD "")).length ≤ col := by
    rcases hbeyond with h | h
    · rw [List.getElem?_eq_none h]
      exact Nat.zero_le col
    · exact h
  simp only [TerminalSnapshot.renderedRows, hcur]
  set base := s.lines.map trimEnd with hbase
  set base2 := if base.length ≤ row then base ++ List.replicate (row + 1 - base.length) ""
    else base with hbase2
  have hblen : base.length = s.lines.length := by
    rw [hbase]
    exact List.length_map s.lines trimEnd
  have hb2len : base2.length = max (row + 1) s.lines.length := by
    rw [hbase2]
    by_cases hc : base.length ≤ row
    · simp only [hc, if_true, List.length_append, List.length_replicate]
      omega
    · simp only [hc, if_false]
      omega
  have hrow : row < base2.length := by
    rw [hb2len]
    omega
  have hb2get : base2[row]?.getD "" = trimEnd (s.lines[row]?.getD "") := by
    rw [hbase2]
    by_cases hc : base.length ≤ row
    · rw [if_pos hc, List.getElem?_append_right hc, List.getElem?_replicate,
        if_pos (by omega : row - base.length < row + 1 - base.length)]
      rw [List.getElem?_eq_none (show s.lines.length ≤ row by omega)]
      rfl
    · rw [if_neg hc, hbase, List.getElem?_map]
      exact hmapget _
  refine ⟨?_, ?_, ?_, ?_⟩
  · rw [List.length_set, hb2len]
  · rw [List.getElem?_set_eq_of_lt _ hrow, hb2get]
    refine congrArg (fun l => some (String.mk l)) ?_
    simp only [TerminalSnapshot.overlayRow]
    have hlen : (trimEnd (s.lines[row]?.getD "")).toList.length ≤ col := hT
    rw [if_pos hlen, List.set_append_right _ _ hlen,
      show col + 1 - (trimEnd (s.lines[row]?.getD "")).toList.length
        = (col - (trimEnd (s.lines[row]?.getD "")).toList.length) + 1 from by omega,
      set_replicate_last, List.append_assoc]
    rfl
  · simp only [TerminalSnapshot.footer, hcur]
  · intro h
    unfold TerminalSnapshot.cursorChar
    rcases h with h | h
    · rw [List.getElem?_eq_none h]
      rfl
    · cases ho : s.lines[row]? with
      | none => rfl
      | some l =>
        rw [ho] at h
        have hnone : l.data[col]? = none := List.getElem?_eq_none (by simpa using h)
        simp [ho, hnone]

/-- C5 counterexample: a cursor one past the trimmed length of `"ab\t"`
(column 2, a trimmed-away tab) is rendered with the padded marker, but the
footer reports the escaped tab, not a space as the claim states. -/
theorem render_cursor_on_trimmed_tab_counterexample :
    TerminalSnapshot.render ⟨10, 1, some (2, 0), ["ab\t"]⟩ =
      "ab▮\nCursor info: row=0, col=2, char=\"\\t\"" ∧
    TerminalSnapshot.render ⟨10, 1, some (2, 0), ["ab\t"]⟩ ≠
      "ab▮\nCursor info: row=0, col=2, char=\" \"" := by
  decide

/-- C5 witness: the beyond-bounds theorem applied to a cursor one row past a
single-line screen: the padded, marker-bearing row and a space in the footer. -/
theorem render_cursor_beyond_bounds_witness :
    (⟨10, 2, some (1, 1), ["ab"]⟩ : TerminalSnapshot).renderedRows[1]? = some " ▮" ∧
    (⟨10, 2, some (1, 1), ["ab"]⟩ : TerminalSnapshot).cursorChar 1 1 = ' ' := by
  have h := render_cursor_beyond_bounds ⟨10, 2, some (1, 1), ["ab"]⟩ 1 1 rfl
    (by decide)
  refine ⟨?_, h.2.2.2 (by decide)⟩
  rw [h.2.1]
  decide

/-! ## Input decoding and byte preview (`agent.rs`) -/

/-- Rust `char::to_digit(16)`: value of a hex digit character. -/
def hexVal (c : Char) : Option Nat :=
  if 48 ≤ c.toNat ∧ c.toNat ≤ 57 then some (c.toNat - 48)
  else if 97 ≤ c.toNat ∧ c.toNat ≤ 102 then some (c.toNat - 87)
  else if 65 ≤ c.toNat ∧ c.toNat ≤ 70 then some (c.toNat - 55)
  else none

/-- UTF-8 encoding of one scalar value (Rust `char::encode_utf8`). -/
def utf8Bytes (c : Char) : List Nat :=
  let n := c.toNat
  if n < 0x80 then [n]
  else if n < 0x800 then [0xC0 + n / 64, 0x80 + n % 64]
  else if n < 0x10000 then [0xE0 + n / 4096, 0x80 + n / 64 % 64, 0x80 + n % 64]
  else [0xF0 + n / 262144, 0x80 + n / 4096 % 64, 0x80 + n / 64 % 64, 0x80 + n % 64]

/-- `decode_terminal_input` from `agent.rs`, over the spec's character list:
`\n`, `\r`, `\t`, `\\` and `\xNN` escapes decode to single bytes, any other
character passes through as its UTF-8 bytes, and a dangling backslash, a
truncated or non-hex `\xNN`, or an unsupported escape letter is an error. -/
def decode_terminal_input : List Char → Except String (List Nat)
  | [] => .ok []
  | c :: rest =>
    if c = '\\' then
      match rest with
      | [] => .error "dangling trailing backslash in input"
      | e :: rest2 =>
        if e = 'n' then (fun bs => 10 :: bs) <$> decode_terminal_input rest2
        else if e = 'r' then (fun bs => 13 :: bs) <$> decode_terminal_input rest2
        else if e = 't' then (fun bs => 9 :: bs) <$> decode_terminal_input rest2
        else if e = '\\' then (fun bs => 92 :: bs) <$> decode_terminal_input rest2
        else if e = 'x' then
          match rest2 with
          | d1 :: d2 :: rest3 =>
            match hexVal d1 with
            | none => .error "invalid first hex digit in hex escape"
            | some hi =>
              match hexVal d2 with
              | none => .error "invalid second hex digit in hex escape"
              | some lo => (fun bs => (hi * 16 + lo) :: bs) <$> decode_terminal_input rest3
          | _ => .error "expected two hex digits after hex escape"
        else .error "unsupported escape sequence"
    else (fun bs => utf8Bytes c ++ bs) <$> decode_terminal_input rest
  termination_by structural l => l

/-- Uppercase hex digit (one digit of Rust `{:02X}` formatting). -/
def hexDigitUpper (n : Nat) : Char :=
  if n < 10 then Char.ofNat (48 + n) else Char.ofNat (55 + n)

/-- One byte's printable-safe rendering inside `render_bytes`. -/
def renderByte (b : Nat) : List Char :=
  if b = 92 then ['\\', '\\']
  else if b = 10 then ['\\', 'n']
  else if b = 13 then ['\\', 'r']
  else if b = 9 then ['\\', 't']
  else if 0x20 ≤ b ∧ b ≤ 0x7e then [Char.ofNat b]
  else ['\\', 'x', hexDigitUpper (b / 16), hexDigitUpper (b % 16)]

/-- `render_bytes` from `agent.rs`: printable-safe preview of a byte string. -/
def render_bytes (bs : List Nat) : List Char :=
  bs.flatMap renderByte
lemma decode_cons_literal (c : Char) (rest : List Char) (h : c ≠ '\\') :
    decode_terminal_input (c :: rest) =
      (fun bs => utf8Bytes c ++ bs) <$> decode_terminal_input rest := by
  rw [decode_terminal_input.eq_def]
  simp only [if_neg h]

lemma decode_dangling_backslash : decode_terminal_input ['\\'] =
    .error "dangling trailing backslash in input" := rfl

lemma decode_backslash_n (rest : List Char) : decode_terminal_input ('\\' :: 'n' :: rest) =
    (fun bs => 10 :: bs) <$> decode_terminal_input rest := by
  rw [decode_terminal_input.eq_def]
  rfl

lemma decode_backslash_r (rest : List Char) : decode_terminal_input ('\\' :: 'r' :: rest) =
    (fun bs => 13 :: bs) <$> decode_terminal_input rest := by
  rw [decode_terminal_input.eq_def]
  rfl

lemma decode_backslash_t (rest : List Char) : decode_terminal_input ('\\' :: 't' :: rest) =
    (fun bs => 9 :: bs) <$> decode_terminal_input rest := by
  rw [decode_terminal_input.eq_def]
  rfl

lemma decode_backslash_backslash (rest : List Char) :
    decode_terminal_input ('\\' :: '\\' :: rest) =
      (fun bs => 92 :: bs) <$> decode_terminal_input rest := by
  rw [decode_terminal_input.eq_def]
  rfl

lemma decode_hex_truncated0 : decode_terminal_input ['\\', 'x'] =
    .error "expected two hex digits after hex escape" := rfl

lemma decode_hex_truncated1 (d : Char) : decode_terminal_input ['\\', 'x', d] =
    .error "expected two hex digits after hex escape" := by
  rw [decode_terminal_input.eq_def]
  rfl

lemma decode_hex_step (d1 d2 : Char) (rest : List Char) :
    decode_terminal_input ('\\' :: 'x' :: d1 :: d2 :: rest) =
      (match hexVal d1 with
      | none => Except.error "invalid first hex digit in hex escape"
      | some hi =>
        match hexVal d2 with
        | none => Except.error "invalid second hex digit in hex escape"
        | some lo => (fun bs => (hi * 16 + lo) :: bs) <$> decode_terminal_input rest) := by
  rw [decode_terminal_input.eq_def]
  rfl

lemma decode_unsupported (c : Char) (rest : List Char) (hn : c ≠ 'n') (hr : c ≠ 'r')
    (ht : c ≠ 't') (hb : c ≠ '\\') (hx : c ≠ 'x') :
    decode_terminal_input ('\\' :: c :: rest) = .error "unsupported escape sequence" := by
  rw [decode_terminal_input.eq_def]
  simp only [if_pos rfl, if_neg hn, if_neg hr, if_neg ht, if_neg hb, if_neg hx]
  rfl
lemma except_map_ok {ε α β : Type} (f : α → β) (x : Except ε α) (y : β) :
    f <$> x = .ok y ↔ ∃ a, x = .ok a ∧ f a = y := by
  cases x <;> simp [Functor.map, Except.map]

lemma decode_append (pre suf : List Char) (bs : List Nat)
    (h : decode_terminal_input pre = .ok bs) :
    decode_terminal_input (pre ++ suf) =
      (fun tl => bs ++ tl) <$> decode_terminal_input suf := by
  induction pre using decode_terminal_input.induct generalizing bs with
  | case1 =>
    have hb : ([] : List Nat) = bs := by injection h
    subst hb
    cases hd : decode_terminal_input suf <;>
      simp [hd, Functor.map, Except.map]
  | case2 =>
    rw [decode_dangling_backslash] at h
    exact absurd h (by simp)
  | case3 rest2 ih =>
    rw [decode_backslash_n, except_map_ok] at h
    obtain ⟨a, ha, hfa⟩ := h
    subst hfa
    simp only [List.cons_append]
    rw [decode_backslash_n, ih a ha]
    cases hd : decode_terminal_input suf <;>
      simp [hd, Functor.map, Except.map, List.cons_append]
  | case4 rest2 _ ih =>
    rw [decode_backslash_r, except_map_ok] at h
    obtain ⟨a, ha, hfa⟩ := h
    subst hfa
    simp only [List.cons_append]
    rw [decode_backslash_r, ih a ha]
    cases hd : decode_terminal_input suf <;>
      simp [hd, Functor.map, Except.map, List.cons_append]
  | case5 rest2 _ _ ih =>
    rw [decode_backslash_t, except_map_ok] at h
    obtain ⟨a, ha, hfa⟩ := h
    subst hfa
    simp only [List.cons_append]
    rw [decode_backslash_t, ih a ha]
    cases hd : decode_terminal_input suf <;>
      simp [hd, Functor.map, Except.map, List.cons_append]
  | case6 rest2 _ _ _ ih =>
    rw [decode_backslash_backslash, except_map_ok] at h
    obtain ⟨a, ha, hfa⟩ := h
    subst hfa
    simp only [List.cons_append]
    rw [decode_backslash_backslash, ih a ha]
    cases hd : decode_terminal_input suf <;>
      simp [hd, Functor.map, Except.map, List.cons_append]
  | case7 d1 d2 rest3 hv1 _ _ _ _ =>
    rw [decode_hex_step] at h
    simp only [hv1] at h
    exact absurd h (by simp)
  | case8 d1 d2 rest3 hi hv1 hv2 _ _ _ _ =>
    rw [decode_hex_step] at h
    simp only [hv1, hv2] at h
    exact absurd h (by simp)
  | case9 d1 d2 rest3 hi hv1 lo hv2 _ _ _ _ ih =>
    rw [decode_hex_step] at h
    simp only [hv1, hv2] at h
    rw [except_map_ok] at h
    obtain ⟨a, ha, hfa⟩ := h
    subst hfa
    simp only [List.cons_append]
    rw [decode_hex_step]
    simp only [hv1, hv2]
    rw [ih a ha]
    cases hd : decode_terminal_input suf <;>
      simp [hd, Functor.map, Except.map, List.cons_append]
  | case10 rest2 hshort _ _ _ _ =>
    cases rest2 with
    | nil =>
      rw [decode_hex_truncated0] at h
      exact absurd h (by simp)
    | cons d tail =>
      cases tail with
      | nil =>
        rw [decode_hex_truncated1] at h
        exact absurd h (by simp)
      | cons d2 tail2 =>
        exact (hshort d d2 tail2 rfl).elim
  | case11 e rest2 hn hr ht hb hx =>
    rw [decode_unsupported e rest2 hn hr ht hb hx] at h
    exact absurd h (by simp)
  | case12 e rest2 hne ih =>
    rw [decode_cons_literal e rest2 hne, except_map_ok] at h
    obtain ⟨a, ha, hfa⟩ := h
    subst hfa
    simp only [List.cons_append]
    rw [decode_cons_literal e (rest2 ++ suf) hne, ih a ha]
    cases hd : decode_terminal_input suf <;>
      simp [hd, Functor.map, Except.map, List.append_assoc]
lemma toNat_ofNat_of_lt (b : Nat) (h : b < 0xd800) : (Char.ofNat b).toNat = b := by
  rw [Char.ofNat, dif_pos (Or.inl h : b.isValidChar)]
  rfl

lemma hexVal_hexDigitUpper (n : Nat) (h : n < 16) :
    hexVal (hexDigitUpper n) = some n := by
  interval_cases n <;> rfl

lemma decode_renderByte (b : Nat) (hb : b < 256) (rest : List Char) :
    decode_terminal_input (renderByte b ++ rest) =
      (fun l => b :: l) <$> decode_terminal_input rest := by
  by_cases h92 : b = 92
  · subst h92
    rw [show renderByte 92 ++ rest = '\\' :: '\\' :: rest from rfl,
      decode_backslash_backslash]
  · by_cases h10 : b = 10
    · subst h10
      rw [show renderByte 10 ++ rest = '\\' :: 'n' :: rest from rfl, decode_backslash_n]
    · by_cases h13 : b = 13
      · subst h13
        rw [show renderByte 13 ++ rest = '\\' :: 'r' :: rest from rfl, decode_backslash_r]
      · by_cases h9 : b = 9
        · subst h9
          rw [show renderByte 9 ++ rest = '\\' :: 't' :: rest from rfl, decode_backslash_t]
        · by_cases hpr : 0x20 ≤ b ∧ b ≤ 0x7e
          · have hren : renderByte b = [Char.ofNat b] := by
              unfold renderByte
              rw [if_neg h92, if_neg h10, if_neg h13, if_neg h9, if_pos hpr]
            have htn : (Char.ofNat b).toNat = b := toNat_ofNat_of_lt b (by omega)
            have hc : Char.ofNat b ≠ '\\' := by
              intro he
              have := congrArg Char.toNat he
              rw [htn] at this
              exact h92 this
            rw [hren, List.cons_append, List.nil_append, decode_cons_literal _ _ hc]
            have hutf : utf8Bytes (Char.ofNat b) = [b] := by
              unfold utf8Bytes
              rw [htn, if_pos (by omega : b < 0x80)]
            rw [hutf]
            rfl
          · have hren : renderByte b =
                ['\\', 'x', hexDigitUpper (b / 16), hexDigitUpper (b % 16)] := by
              unfold renderByte
              rw [if_neg h92, if_neg h10, if_neg h13, if_neg h9, if_neg hpr]
            rw [hren, List.cons_append, List.cons_append, List.cons_append,
              List.cons_append, List.nil_append, decode_hex_step]
            simp only [hexVal_hexDigitUpper (b / 16) (by omega),
              hexVal_hexDigitUpper (b % 16) (by omega)]
            have hdm : b / 16 * 16 + b % 16 = b := by omega
            rw [hdm]

/-! ## Wait validation and execution gate (`agent.rs`) -/

/-- Shallow model of an `f64` wait value: NaN, a signed infinity, or a
finite value (signed zero collapses: `-0.0 >= 0.0` holds in IEEE just as
`0 ≤ 0` does here). -/
inductive F64
  | nan
  | inf (negative : Bool)
  | finite (val : ℚ)
  deriving Repr, DecidableEq

/-- Rust `f64::is_finite`. -/
def F64.isFinite : F64 → Bool
  | .finite _ => true
  | _ => false

/-- IEEE comparison `w >= 0.0` (false for NaN). -/
def F64.geZero : F64 → Bool
  | .nan => false
  | .inf neg => !neg
  | .finite q => decide (0 ≤ q)

/-- IEEE comparison `w > 0.0` (false for NaN). -/
def F64.gtZero : F64 → Bool
  | .nan => false
  | .inf neg => !neg
  | .finite q => decide (0 < q)

/-- `validate_wait_seconds` from `agent.rs`: the wait must be finite and
non-negative. -/
def validate_wait_seconds (w : F64) : Except String Unit :=
  if !w.isFinite then .error "float must be a finite number"
  else if !w.geZero then .error "float must be non-negative"
  else .ok ()

/-- Observable actions performed by the execution gate and the session
handle during one tool call. -/
inductive GateEvent
  | acquireGate
  | confirmPrompt
  | sendBytes (bytes : List Nat)
  | sleep
  | takeSnapshot
  deriving Repr, DecidableEq

/-- `ShellToolContext::execute_tool_call`: validate the wait, then take the
execution lock, then (unless yolo) ask for confirmation; a denial snapshots
without injecting; approval runs `execute_locked`, which sends the bytes,
sleeps when the wait is positive, and takes the snapshot. The result records
whether bytes were injected, alongside the ordered event trace. -/
def execute_tool_call (bytes : List Nat) (w : F64) (yolo approved : Bool) :
    Except String Bool × List GateEvent :=
  match validate_wait_seconds w with
  | .error e => (.error e, [])
  | .ok () =>
    if yolo then
      (.ok true, [.acquireGate, .sendBytes bytes] ++
        (if w.gtZero then [.sleep] else []) ++ [.takeSnapshot])
    else if approved then
      (.ok true, [.acquireGate, .confirmPrompt, .sendBytes bytes] ++
        (if w.gtZero then [.sleep] else []) ++ [.takeSnapshot])
    else
      (.ok false, [.acquireGate, .confirmPrompt, .takeSnapshot])

/-- `RawInputTool::call`: validate the wait, decode the escaped spec, then
run `execute_tool_call` on the decoded bytes. -/
def rawInputToolCall (spec : List Char) (w : F64) (yolo approved : Bool) :
    Except String Bool × List GateEvent :=
  match validate_wait_seconds w with
  | .error e => (.error e, [])
  | .ok () =>
    match decode_terminal_input spec with
    | .error e => (.error e, [])
    | .ok bytes => execute_tool_call bytes w yolo approved

/-- C6: escape decoding is total-or-rejected before injection: after any
prefix that decodes, a dangling trailing backslash, a `\x` truncated before
two digits, a non-hex digit in `\xNN`, or an unsupported escape letter makes
the whole spec decode to an error, and in the tool-call pipeline a decode
error yields no gate, injection or snapshot events at all; conversely `\n`,
`\r`, `\t`, `\\` and valid `\xNN` decode to the corresponding single bytes. -/
theorem decode_rejects_malformed_accepts_escapes :
    (∀ pre bs, decode_terminal_input pre = .ok bs →
      ∃ e, decode_terminal_input (pre ++ ['\\']) = .error e) ∧
    (∀ pre bs c suf, decode_terminal_input pre = .ok bs →
      c ≠ 'n' → c ≠ 'r' → c ≠ 't' → c ≠ '\\' → c ≠ 'x' →
      ∃ e, decode_terminal_input (pre ++ '\\' :: c :: suf) = .error e) ∧
    (∀ pre bs, decode_terminal_input pre = .ok bs →
      (∃ e, decode_terminal_input (pre ++ ['\\', 'x']) = .error e) ∧
      ∀ d, ∃ e, decode_terminal_input (pre ++ ['\\', 'x', d]) = .error e) ∧
    (∀ pre bs d1 d2 suf, decode_terminal_input pre = .ok bs →
      hexVal d1 = none ∨ hexVal d2 = none →
      ∃ e, decode_terminal_input (pre ++ '\\' :: 'x' :: d1 :: d2 :: suf) = .error e) ∧
    (∀ spec w yolo approved e, decode_terminal_input spec = .error e →
      validate_wait_seconds w = .ok () →
      rawInputToolCall spec w yolo approved = (.error e, [])) ∧
    (∀ suf, decode_terminal_input ('\\' :: 'n' :: suf) =
        (fun tl => 10 :: tl) <$> decode_terminal_input suf ∧
      decode_terminal_input ('\\' :: 'r' :: suf) =
        (fun tl => 13 :: tl) <$> decode_terminal_input suf ∧
      decode_terminal_input ('\\' :: 't' :: suf) =
        (fun tl => 9 :: tl) <$> decode_terminal_input suf ∧
      decode_terminal_input ('\\' :: '\\' :: suf) =
        (fun tl => 92 :: tl) <$> decode_terminal_input suf) ∧
    (∀ hi lo d1 d2 suf, hexVal d1 = some hi → hexVal d2 = some lo →
      decode_terminal_input ('\\' :: 'x' :: d1 :: d2 :: suf) =
        (fun tl => (hi * 16 + lo) :: tl) <$> decode_terminal_input suf) := by
  refine ⟨?_, ?_, ?_, ?_, ?_, ?_, ?_⟩
  · intro pre bs h
    rw [decode_append pre ['\\'] bs h, decode_dangling_backslash]
    exact ⟨_, rfl⟩
  · intro pre bs c suf h hn hr ht hb hx
    rw [decode_append pre _ bs h, decode_unsupported c suf hn hr ht hb hx]
    exact ⟨_, rfl⟩
  · intro pre bs h
    refine ⟨?_, ?_⟩
    · rw [decode_append pre _ bs h, decode_hex_truncated0]
      exact ⟨_, rfl⟩
    · intro d
      rw [decode_append pre _ bs h, decode_hex_truncated1]
      exact ⟨_, rfl⟩
  · intro pre bs d1 d2 suf h hv
    rw [decode_append pre _ bs h, decode_hex_step]
    rcases hv with hv | hv
    · rw [hv]
      exact ⟨_, rfl⟩
    · cases h1 : hexVal d1 with
      | none => exact ⟨_, rfl⟩
      | some hi =>
        rw [hv]
        exact ⟨_, rfl⟩
  · intro spec w yolo approved e hdec hval
    simp only [rawInputToolCall, hval, hdec]
  · intro suf
    exact ⟨decode_backslash_n suf, decode_backslash_r suf, decode_backslash_t suf,
      decode_backslash_backslash suf⟩
  · intro hi lo d1 d2 suf h1 h2
    rw [decode_hex_step]
    simp only [h1, h2]

/-- C6 witness: concrete malformed specs rejected and a valid hex escape
decoded, via the main theorem. -/
theorem decode_rejects_malformed_witness :
    (∃ e, decode_terminal_input ['a', '\\'] = .error e) ∧
    (∃ e, decode_terminal_input ['a', '\\', 'q'] = .error e) ∧
    (∃ e, decode_terminal_input ['a', '\\', 'x'] = .error e) ∧
    (∃ e, decode_terminal_input ['a', '\\', 'x', '4'] = .error e) ∧
    (∃ e, decode_terminal_input ['a', '\\', 'x', 'g', '0'] = .error e) ∧
    rawInputToolCall ['\\'] (F64.finite 1) true true =
      (.error "dangling trailing backslash in input", []) ∧
    decode_terminal_input ['\\', 'x', '4', '1'] = .ok [65] := by
  obtain ⟨c1, c2, c3, c4, c5, c6, c7⟩ := decode_rejects_malformed_accepts_escapes
  refine ⟨c1 ['a'] [97] rfl, ?_, (c3 ['a'] [97] rfl).1, (c3 ['a'] [97] rfl).2 '4', ?_, ?_, ?_⟩
  · exact c2 ['a'] [97] 'q' [] rfl (by decide) (by decide) (by decide) (by decide)
      (by decide)
  · exact c4 ['a'] [97] 'g' '0' [] rfl (Or.inl rfl)
  · exact c5 ['\\'] (F64.finite 1) true true _ rfl rfl
  · rw [c7 4 1 '4' '1' [] rfl rfl]
    rfl

/-- C7: a non-finite or negative wait makes `execute_tool_call` fail with an
input error and an empty event trace — the gate is never acquired, no bytes
are sent, nothing is mutated — while every finite non-negative wait passes
`validate_wait_seconds`. -/
theorem wait_validation_rejects_before_gate (w : F64) (bytes : List Nat)
    (yolo approved : Bool) :
    (w.isFinite = false ∨ w.geZero = false →
      ∃ e, execute_tool_call bytes w yolo approved = (.error e, [])) ∧
    (w.isFinite = true → w.geZero = true → validate_wait_seconds w = .ok ()) := by
  constructor
  · intro hbad
    obtain ⟨e, he⟩ : ∃ e, validate_wait_seconds w = .error e := by
      unfold validate_wait_seconds
      rcases hbad with hb | hb
      · rw [hb]
        exact ⟨_, rfl⟩
      · cases hfin : w.isFinite with
        | false => exact ⟨_, rfl⟩
        | true =>
          rw [hb]
          exact ⟨_, rfl⟩
    exact ⟨e, by simp only [execute_tool_call, he]⟩
  · intro h1 h2
    unfold validate_wait_seconds
    rw [h1, h2]
    rfl

/-- C7 witness: NaN, a negative finite value and positive infinity are all
rejected with no events; a zero wait passes validation. -/
theorem wait_validation_witness :
    (∃ e, execute_tool_call [1] F64.nan true true = (.error e, [])) ∧
    (∃ e, execute_tool_call [1] (F64.finite (-1)) true true = (.error e, [])) ∧
    (∃ e, execute_tool_call [1] (F64.inf false) true true = (.error e, [])) ∧
    validate_wait_seconds (F64.finite 0) = .ok () := by
  refine ⟨(wait_validation_rejects_before_gate F64.nan [1] true true).1 (Or.inl rfl),
    (wait_validation_rejects_before_gate (F64.finite (-1)) [1] true true).1
      (Or.inr (by decide)),
    (wait_validation_rejects_before_gate (F64.inf false) [1] true true).1 (Or.inl rfl),
    (wait_validation_rejects_before_gate (F64.finite 0) [1] true true).2 rfl (by decide)⟩

/-- C10: decoding the printable-safe preview (`render_bytes`) of any byte
string yields exactly the original bytes. -/
theorem decode_render_bytes_roundtrip (bs : List Nat) (h : ∀ b ∈ bs, b < 256) :
    decode_terminal_input (render_bytes bs) = .ok bs := by
  induction bs with
  | nil => rfl
  | cons b tl ih =>
    have hb : b < 256 := h b (List.mem_cons_self b tl)
    have htl : ∀ x ∈ tl, x < 256 := fun x hx => h x (List.mem_cons_of_mem b hx)
    show decode_terminal_input (renderByte b ++ render_bytes tl) = .ok (b :: tl)
    rw [decode_renderByte b hb (render_bytes tl), ih htl]
    rfl

/-- C10 witness: round trip at a byte string exercising every rendering
class — backslash, the named escapes, printable ASCII, and hex escapes. -/
theorem decode_render_bytes_roundtrip_witness :
    decode_terminal_input (render_bytes [0, 9, 10, 13, 27, 65, 92, 126, 127, 255]) =
      .ok [0, 9, 10, 13, 27, 65, 92, 126, 127, 255] :=
  decode_render_bytes_roundtrip [0, 9, 10, 13, 27, 65, 92, 126, 127, 255] (by decide)

/-! ## Session worker command handling (`run_worker`) -/

/-- The screen-buffer emulator state observable by snapshots. -/
structure VtState where
  cursor : Option (Nat × Nat)
  lines : List String
  deriving Repr, DecidableEq

/-- The worker's mutable state: the Session Resource Triple (PTY and child
modelled by identifiers, the emulator by its observable state), the cached
`child_exited` flag, and the loop's `running` flag. -/
structure WorkerState where
  cols : Nat
  rows : Nat
  ptyId : Nat
  childId : Nat
  vt : VtState
  childExited : Bool
  running : Bool
  deriving Repr, DecidableEq

/-- `SessionCommand` from `terminal_session.rs` (each variant's oneshot
reply channel is modelled by the step function's returned reply). -/
inductive SessionCommand
  | sendInput (bytes : List Nat)
  | snapshot
  | reset
  | shutdown
  deriving Repr, DecidableEq

/-- The reply fulfilled on a command's oneshot channel. -/
inductive Reply
  | ack (r : Except String Unit)
  | snap (r : Except String TerminalSnapshot)
  deriving Repr

/-- Side effects of one command dispatch, in program order. -/
inductive WorkerEvent
  | ptyWrite (bytes : List Nat)
  | spawnAttempt (ok : Bool)
  | terminateChild (child : Nat)
  deriving Repr, DecidableEq

/-- Oracles summarising the I/O outcomes during one dispatch: the overall
result of `write_all_with_retry` (transient retries are internal), the
result of `spawn_terminal_parts` (fresh pty id, child id and emulator), and
the emulator update produced by the best-effort drain before a snapshot. -/
structure StepOracle where
  writeRes : Except String Unit
  spawnRes : Except String (Nat × Nat × VtState)
  drain : VtState → VtState

/-- The `TerminalSnapshot` built from the current emulator state. -/
def snapshotOf (st : WorkerState) : TerminalSnapshot :=
  ⟨st.cols, st.rows, st.vt.cursor, st.vt.lines⟩

/-- One iteration of `run_worker`'s command dispatch (the `match` on
`cmd_rx.recv_timeout`): the new worker state, the reply sent on the
command's channel, and the ordered side effects. -/
def run_worker_step (st : WorkerState) (cmd : SessionCommand) (o : StepOracle) :
    WorkerState × Reply × List WorkerEvent :=
  match cmd with
  | .sendInput bytes =>
    if st.childExited then
      (st, .ack (.error "bash process has already exited"), [])
    else
      match o.writeRes with
      | .ok () => (st, .ack (.ok ()), [.ptyWrite bytes])
      | .error e => (st, .ack (.error e), [])
  | .snapshot =>
    let vt := if st.childExited then st.vt else o.drain st.vt
    ({ st with vt := vt }, .snap (.ok ⟨st.cols, st.rows, vt.cursor, vt.lines⟩), [])
  | .reset =>
    match o.spawnRes with
    | .ok (p, c, v) =>
      ({ st with ptyId := p, childId := c, vt := v, childExited := false },
        .ack (.ok ()), [.spawnAttempt true, .terminateChild st.childId])
    | .error e => (st, .ack (.error e), [.spawnAttempt false])
  | .shutdown => ({ st with running := false }, .ack (.ok ()), [])

/-- C1: Reset is fail-atomic: when the replacement spawn fails, the reply
carries the spawn error, the worker state (the whole resource triple and the
`child_exited` flag) is unchanged, no termination of the old child happens,
and a subsequent Snapshot (with no new PTY output to drain) still returns
the pre-reset screen; conversely the old child is terminated only on a
dispatch whose spawn succeeded, and then strictly after the spawn attempt. -/
theorem reset_fail_atomic (st : WorkerState) (o : StepOracle) (e : String)
    (hspawn : o.spawnRes = .error e) :
    (run_worker_step st .reset o).2.1 = .ack (.error e) ∧
    (run_worker_step st .reset o).1 = st ∧
    (∀ c, WorkerEvent.terminateChild c ∉ (run_worker_step st .reset o).2.2) ∧
    (∀ o2 : StepOracle, o2.drain = id →
      (run_worker_step ((run_worker_step st .reset o).1) .snapshot o2).2.1 =
        .snap (.ok (snapshotOf st))) ∧
    (∀ o3 : StepOracle, ∀ c,
      WorkerEvent.terminateChild c ∈ (run_worker_step st .reset o3).2.2 →
      c = st.childId ∧ (∃ parts, o3.spawnRes = .ok parts) ∧
      (run_worker_step st .reset o3).2.2 =
        [.spawnAttempt true, .terminateChild st.childId]) := by
  refine ⟨?_, ?_, ?_, ?_, ?_⟩
  · simp [run_worker_step, hspawn]
  · simp [run_worker_step, hspawn]
  · intro c
    simp [run_worker_step, hspawn]
  · intro o2 hdrain
    simp [run_worker_step, hspawn, hdrain, snapshotOf]
  · intro o3 c hmem
    cases hsp : o3.spawnRes with
    | error e2 =>
      rw [show (run_worker_step st .reset o3).2.2 = [.spawnAttempt false] by
        simp [run_worker_step, hsp]] at hmem
      simp at hmem
    | ok parts =>
      obtain ⟨p, ch, v⟩ := parts
      rw [show (run_worker_step st .reset o3).2.2 =
          [.spawnAttempt true, .terminateChild st.childId] by
        simp [run_worker_step, hsp]] at hmem
      simp at hmem
      exact ⟨hmem, ⟨(p, ch, v), rfl⟩, by simp [run_worker_step, hsp]⟩

/-- C1 witness: the fail-atomicity theorem at a concrete worker state and a
failing spawn oracle. -/
theorem reset_fail_atomic_witness :
    (run_worker_step ⟨80, 24, 0, 1, ⟨some (0, 0), ["hi"]⟩, false, true⟩ .reset
        ⟨.ok (), .error "spawn failed", id⟩).2.1 = .ack (.error "spawn failed") ∧
    (run_worker_step ⟨80, 24, 0, 1, ⟨some (0, 0), ["hi"]⟩, false, true⟩ .reset
        ⟨.ok (), .error "spawn failed", id⟩).1 =
      ⟨80, 24, 0, 1, ⟨some (0, 0), ["hi"]⟩, false, true⟩ :=
  ⟨(reset_fail_atomic _ _ "spawn failed" rfl).1,
    (reset_fail_atomic _ _ "spawn failed" rfl).2.1⟩

/-- C8: a SendInput dispatched while the child is known exited replies the
distinct "process already exited" error to that caller, writes nothing to
the PTY, leaves the worker state (including `running`) unchanged, and a
subsequent Snapshot still succeeds with the current screen. -/
theorem send_input_after_exit (st : WorkerState) (o o2 : StepOracle)
    (bytes : List Nat) (hexit : st.childExited = true) :
    run_worker_step st (.sendInput bytes) o =
      (st, .ack (.error "bash process has already exited"), []) ∧
    (run_worker_step ((run_worker_step st (.sendInput bytes) o).1) .snapshot o2).2.1 =
      .snap (.ok (snapshotOf st)) := by
  have h1 : run_worker_step st (.sendInput bytes) o =
      (st, .ack (.error "bash process has already exited"), []) := by
    simp [run_worker_step, hexit]
  refine ⟨h1, ?_⟩
  rw [h1]
  simp [run_worker_step, hexit, snapshotOf]

/-- C8 witness: the theorem at a concrete exited-child state. -/
theorem send_input_after_exit_witness :
    run_worker_step ⟨80, 24, 0, 1, ⟨none, ["done"]⟩, true, true⟩ (.sendInput [3])
        ⟨.ok (), .error "x", id⟩ =
      (⟨80, 24, 0, 1, ⟨none, ["done"]⟩, true, true⟩,
        .ack (.error "bash process has already exited"), []) ∧
    (run_worker_step
        ((run_worker_step ⟨80, 24, 0, 1, ⟨none, ["done"]⟩, true, true⟩
          (.sendInput [3]) ⟨.ok (), .error "x", id⟩).1) .snapshot
        ⟨.ok (), .error "x", id⟩).2.1 =
      .snap (.ok ⟨80, 24, none, ["done"]⟩) :=
  send_input_after_exit ⟨80, 24, 0, 1, ⟨none, ["done"]⟩, true, true⟩
    ⟨.ok (), .error "x", id⟩ ⟨.ok (), .error "x", id⟩ [3] rfl

/-! ## Termination escalation (`terminate_bash_and_children`) -/

/-- Events of the termination sequence: exit polls (`wait_for_child_exit`)
and the three escalating kill steps. -/
inductive TermEvent
  | poll
  | sigTermGroup
  | sigKillGroup
  | killChild
  deriving Repr, DecidableEq

/-- `terminate_bash_and_children` as the ordered event trace it produces.
`e0`, `e1`, `e2` are the results of the three decisive exit polls
(`wait_for_child_exit` with zero, TERM-grace and KILL-grace timeouts); a
poll error is `unwrap_or(false)`, i.e. treated as still-alive. -/
def terminate_bash_and_children (e0 e1 e2 : Bool) : List TermEvent :=
  .poll :: if e0 then [] else
    .sigTermGroup :: .poll :: if e1 then [] else
      .sigKillGroup :: .poll :: if e2 then [] else [.killChild, .poll]

/-- `signal_process_group`: ESRCH ("no such process", errno 3) from
`kill_process_group` is success; any other error propagates. -/
def signal_process_group (res : Except Nat Unit) : Except Nat Unit :=
  match res with
  | .ok () => .ok ()
  | .error errno => if errno = 3 then .ok () else .error errno

/-- C9: the termination trace is always a prefix of the ladder poll, TERM,
poll, KILL, poll, direct kill, poll — so signals escalate monotonically, a
weaker signal never follows a stronger one, and each signal is followed by a
bounded exit poll; nothing is sent when the child already exited, the
sequence stops at the first successful poll, and ESRCH from signalling is
treated as success. -/
theorem termination_escalation (e0 e1 e2 : Bool) :
    (∃ tail, terminate_bash_and_children e0 e1 e2 ++ tail =
      [.poll, .sigTermGroup, .poll, .sigKillGroup, .poll, .killChild, .poll]) ∧
    (e0 = true → terminate_bash_and_children e0 e1 e2 = [.poll]) ∧
    (e0 = false → e1 = true →
      terminate_bash_and_children e0 e1 e2 = [.poll, .sigTermGroup, .poll]) ∧
    (e0 = false → e1 = false → e2 = true →
      terminate_bash_and_children e0 e1 e2 =
        [.poll, .sigTermGroup, .poll, .sigKillGroup, .poll]) ∧
    (e0 = false → e1 = false → e2 = false →
      terminate_bash_and_children e0 e1 e2 =
        [.poll, .sigTermGroup, .poll, .sigKillGroup, .poll, .killChild, .poll]) ∧
    signal_process_group (.error 3) = .ok () ∧
    signal_process_group (.ok ()) = .ok () ∧
    (∀ errno, errno ≠ 3 → signal_process_group (.error errno) = .error errno) := by
  refine ⟨?_, ?_, ?_, ?_, ?_, rfl, rfl, ?_⟩
  · cases e0 <;> cases e1 <;> cases e2 <;> exact ⟨_, rfl⟩
  · intro h0
    subst h0
    rfl
  · intro h0 h1
    subst h0
    subst h1
    rfl
  · intro h0 h1 h2
    subst h0
    subst h1
    subst h2
    rfl
  · intro h0 h1 h2
    subst h0
    subst h1
    subst h2
    rfl
  · intro errno h
    simp [signal_process_group, h]

/-- C9 witness: the escalation theorem at concrete poll outcomes — exit
after TERM yields exactly poll, TERM, poll; an already-exited child yields a
single poll and no signal. -/
theorem termination_escalation_witness :
    terminate_bash_and_children false true true = [.poll, .sigTermGroup, .poll] ∧
    terminate_bash_and_children true false false = [.poll] :=
  ⟨(termination_escalation false true true).2.2.1 rfl rfl,
    (termination_escalation true false false).2.1 rfl⟩
